import Mathlib

/-!
Shallow embedding of the slurm_longrun supervisor (src/slurm_longrun/).

Python strings are modelled as lists of characters, Python dicts over
strings as insertion-ordered association lists, and Python exceptions as
an explicit error type threaded through Except.  External commands
(sbatch, sacct, scontrol) perform IO; each wrapper from utils.py is
embedded as a function of the command result (captured stdout on exit
zero, or a CalledProcessError on nonzero exit), which is exactly the
information subprocess.run hands back to the wrapper.
-/

set_option maxRecDepth 4000

/-- A Python string: a list of characters. -/
abbrev PyStr := List Char

/-- The Python exceptions the embedded code can raise. -/
inductive PyExc where
  | valueError
  | typeError
  | unboundLocalError
deriving DecidableEq

/-- subprocess.CalledProcessError as raised by subprocess.run with check=True. -/
structure CalledProcessError where
  returncode : Int
deriving DecidableEq

/-- Result of running one external command: captured stdout on exit zero,
CalledProcessError on nonzero exit. -/
abbrev CmdResult := Except CalledProcessError PyStr

deriving instance DecidableEq for Except

/-- Python str.isspace on one character (the whitespace str.split and
str.strip treat as separators). -/
def pyIsSpace (c : Char) : Bool :=
  c = ' ' ∨ c = '\t' ∨ c = '\n' ∨ c = '\x0d' ∨ c = '\x0b' ∨ c = '\x0c'

/-- Python str.strip with no arguments: drop whitespace from both ends. -/
def pyStrip (s : PyStr) : PyStr :=
  ((s.dropWhile pyIsSpace).reverse.dropWhile pyIsSpace).reverse

/-- Python s.split(sep) for a one-character separator: split on every
occurrence, keeping empty pieces. -/
def pySplitChar (sep : Char) : PyStr → List PyStr
  | [] => [[]]
  | c :: rest =>
    if c = sep then [] :: pySplitChar sep rest
    else
      match pySplitChar sep rest with
      | [] => [[c]]
      | p :: ps => (c :: p) :: ps

/-- Python s.split(sep, 1) for a one-character separator, returning none
when the separator does not occur (used after an explicit membership
test in the source). -/
def splitFirst (sep : Char) : PyStr → Option (PyStr × PyStr)
  | [] => none
  | c :: rest =>
    if c = sep then some ([], rest)
    else (splitFirst sep rest).map (fun p => (c :: p.1, p.2))

/-- Python s.split() with no separator: split on whitespace runs,
discarding empty pieces. -/
def pyWsSplit : PyStr → List PyStr
  | [] => []
  | c :: rest =>
    if pyIsSpace c then pyWsSplit rest
    else
      match pyWsSplit rest with
      | [] => [[c]]
      | p :: ps =>
        match rest with
        | [] => [[c]]
        | r :: _ => if pyIsSpace r then [c] :: p :: ps else (c :: p) :: ps

/-- First whitespace token of a Python string, as produced by
s.split(maxsplit=1)[0]; none when the split yields the empty list
(the IndexError case in the source). -/
def firstWsToken (s : PyStr) : Option PyStr :=
  let t := s.dropWhile pyIsSpace
  if t = [] then none else some (t.takeWhile (fun c => ¬ pyIsSpace c))

/-- Decimal value of a digit string, most significant digit first. -/
def decVal (ds : PyStr) : Nat :=
  ds.foldl (fun a c => 10 * a + (c.toNat - 48)) 0

/-- Python int(str): strip surrounding whitespace, allow one optional
sign, then require a nonempty run of decimal digits; anything else
raises ValueError. -/
def pyInt (s : PyStr) : Except PyExc Int :=
  match pyStrip s with
  | '-' :: ds =>
    if ds ≠ [] ∧ ds.all Char.isDigit then .ok (-(decVal ds : Int)) else .error .valueError
  | '+' :: ds =>
    if ds ≠ [] ∧ ds.all Char.isDigit then .ok (decVal ds : Int) else .error .valueError
  | ds =>
    if ds ≠ [] ∧ ds.all Char.isDigit then .ok (decVal ds : Int) else .error .valueError

/-- A Python dict with string keys and values: insertion-ordered
association list with no duplicate keys when built by dictInsert. -/
abbrev Dict := List (PyStr × PyStr)

/-- Keys of a dict in insertion order. -/
def dictKeys (d : Dict) : List PyStr := d.map Prod.fst

/-- Python d.get(k): the value at the first matching key, if any. -/
def dictGet (d : Dict) (k : PyStr) : Option PyStr :=
  (d.find? (fun p => p.1 = k)).map Prod.snd

/-- Python d.get(k, default). -/
def dictGetD (d : Dict) (k dflt : PyStr) : PyStr :=
  (dictGet d k).getD dflt

/-- Python d[k] = v: replace the value in place if the key exists,
otherwise append the pair at the end. -/
def dictInsert (d : Dict) (k v : PyStr) : Dict :=
  if k ∈ dictKeys d then d.map (fun p => if p.1 = k then (k, v) else p)
  else d ++ [(k, v)]

/-- Python dict merge as in the source: start from the first dict and
assign every pair of the second in order, so same-named keys take the
second dict's value. -/
def mergeDict (a b : Dict) : Dict :=
  b.foldl (fun acc p => dictInsert acc p.1 p.2) a

/-- The JobStatus enum of common.py. -/
inductive JobStatus where
  | PENDING | RUNNING | SUSPENDED | COMPLETING | CONFIGURING | RESIZING | REQUEUED
  | COMPLETED | FAILED | TIMEOUT | PREEMPTED | STOPPED | CANCELLED
  | BOOT_FAIL | NODE_FAIL | DEADLINE | OUT_OF_MEMORY | SPECIAL_EXIT | REVOKED
  | UNKNOWN
deriving DecidableEq

/-- The string value of each JobStatus member, as in common.py. -/
def JobStatus.value : JobStatus → PyStr
  | .PENDING => "PENDING".data
  | .RUNNING => "RUNNING".data
  | .SUSPENDED => "SUSPENDED".data
  | .COMPLETING => "COMPLETING".data
  | .CONFIGURING => "CONFIGURING".data
  | .RESIZING => "RESIZING".data
  | .REQUEUED => "REQUEUED".data
  | .COMPLETED => "COMPLETED".data
  | .FAILED => "FAILED".data
  | .TIMEOUT => "TIMEOUT".data
  | .PREEMPTED => "PREEMPTED".data
  | .STOPPED => "STOPPED".data
  | .CANCELLED => "CANCELLED".data
  | .BOOT_FAIL => "BOOT_FAIL".data
  | .NODE_FAIL => "NODE_FAIL".data
  | .DEADLINE => "DEADLINE".data
  | .OUT_OF_MEMORY => "OUT_OF_MEMORY".data
  | .SPECIAL_EXIT => "SPECIAL_EXIT".data
  | .REVOKED => "REVOKED".data
  | .UNKNOWN => "UNKNOWN".data

/-- All members of the enum, in declaration order. -/
def JobStatus.members : List JobStatus :=
  [.PENDING, .RUNNING, .SUSPENDED, .COMPLETING, .CONFIGURING, .RESIZING, .REQUEUED,
   .COMPLETED, .FAILED, .TIMEOUT, .PREEMPTED, .STOPPED, .CANCELLED,
   .BOOT_FAIL, .NODE_FAIL, .DEADLINE, .OUT_OF_MEMORY, .SPECIAL_EXIT, .REVOKED,
   .UNKNOWN]

/-- The string values of all members. -/
def JobStatus.values : List PyStr := JobStatus.members.map JobStatus.value

/-- Python JobStatus(raw): enum lookup by value; none models the
ValueError raised on an unrecognized value. -/
def JobStatus.ofValue (s : PyStr) : Option JobStatus :=
  JobStatus.members.find? (fun st => st.value = s)

/-- TERMINAL_STATES from common.py is_final. -/
def JobStatus.TERMINAL_STATES : List JobStatus :=
  [.COMPLETED, .FAILED, .TIMEOUT, .PREEMPTED, .STOPPED, .CANCELLED,
   .BOOT_FAIL, .NODE_FAIL, .DEADLINE, .OUT_OF_MEMORY, .SPECIAL_EXIT, .REVOKED,
   .UNKNOWN]

/-- SUCCESS_STATES from common.py is_success. -/
def JobStatus.SUCCESS_STATES : List JobStatus := [.COMPLETED, .TIMEOUT]

/-- common.py JobStatus.is_final(status): convert the string with
JobStatus(status) (ValueError on failure, not caught), then test
membership in TERMINAL_STATES. -/
def JobStatus.is_final (status : PyStr) : Except PyExc Bool :=
  match JobStatus.ofValue status with
  | none => .error .valueError
  | some st => .ok (decide (st ∈ JobStatus.TERMINAL_STATES))

/-- common.py JobStatus.is_success(status): convert the string with
JobStatus(status) (ValueError on failure, not caught), then test
membership in SUCCESS_STATES. -/
def JobStatus.is_success (status : PyStr) : Except PyExc Bool :=
  match JobStatus.ofValue status with
  | none => .error .valueError
  | some st => .ok (decide (st ∈ JobStatus.SUCCESS_STATES))

/-- The literal part of the confirmation pattern in utils.run_sbatch. -/
def submittedPat : PyStr := "Submitted batch job ".data

/-- Boolean prefix test used to model the regex engine trying the
pattern at one position. -/
def startsWith : PyStr → PyStr → Bool
  | [], _ => true
  | _ :: _, [] => false
  | p :: ps, c :: cs => p = c && startsWith ps cs

/-- Leftmost match of the regex Submitted batch job followed by one or
more digits, returning the greedy digit group, as re.search does in
utils.run_sbatch. -/
def findSubmitted : PyStr → Option PyStr
  | [] => none
  | c :: rest =>
    if startsWith submittedPat (c :: rest) then
      let ds := ((c :: rest).drop submittedPat.length).takeWhile Char.isDigit
      if ds = [] then findSubmitted rest else some ds
    else findSubmitted rest

/-- utils.run_sbatch: run the submit command (a CalledProcessError from
run_command propagates), search the captured stdout for the
confirmation pattern, and return the captured job id, or Python None
(modelled as Option.none) when the pattern is absent. -/
def run_sbatch (cmdOut : CmdResult) : Except CalledProcessError (Option PyStr) :=
  match cmdOut with
  | .error e => .error e
  | .ok output => .ok (findSubmitted output)

/-- utils.get_scontrol_show_job_details: a CalledProcessError from the
live query is caught and yields the empty dict; otherwise newlines are
replaced by spaces, the text is whitespace-tokenized, and every token
containing an equals sign contributes one key/value pair (split at the
first equals sign), later duplicates overwriting earlier ones. -/
def get_scontrol_show_job_details (cmdOut : CmdResult) : Dict :=
  match cmdOut with
  | .error _ => []
  | .ok out =>
    let toks := pyWsSplit (out.map (fun c => if c = '\n' then ' ' else c))
    toks.foldl
      (fun info tok =>
        match splitFirst '=' tok with
        | some (k, v) => dictInsert info k v
        | none => info)
      []

/-- The fixed sacct header list of utils.get_sacct_job_details. -/
def sacct_headers : List PyStr :=
  ["JobID".data, "JobName".data, "State".data, "ExitCode".data,
   "Reason".data, "Comment".data, "Elapsed".data]

/-- utils.get_sacct_job_details: runs sacct through subprocess.run with
check=True and catches nothing, so a CalledProcessError propagates to
the caller; on success the stripped stdout is split into lines, each
line split on the pipe character, padded or truncated to the header
length, and zipped with the headers. -/
def get_sacct_job_details (cmdOut : CmdResult) :
    Except CalledProcessError (List Dict) :=
  match cmdOut with
  | .error e => .error e
  | .ok stdout =>
    let out := pyStrip stdout
    if out = [] then .ok []
    else
      .ok ((pySplitChar '\n' out).map (fun line =>
        let parts := pySplitChar '|' line
        let parts := (parts ++ List.replicate sacct_headers.length []).take
          sacct_headers.length
        sacct_headers.zip parts))

/-- utils.time_to_seconds, inner parse of the HH:MM:SS part: split on
colons, unpack into exactly three pieces (ValueError otherwise, as the
starred unpacking of map(int, ...) raises), and convert each with
int(). -/
def parse_hms (rest : PyStr) : Except PyExc (Int × Int × Int) :=
  match pySplitChar ':' rest with
  | [hs, ms, ss] =>
    match pyInt hs, pyInt ms, pyInt ss with
    | .ok h, .ok m, .ok s => .ok (h, m, s)
    | .error e, _, _ => .error e
    | _, .error e, _ => .error e
    | _, _, .error e => .error e
  | _ => .error .valueError

/-- utils.time_to_seconds: if the string contains a dash, the part
before the first dash is the day count (int() of it, ValueError
propagates); the rest is HH:MM:SS; total is days*86400 + h*3600 +
m*60 + s. -/
def time_to_seconds (timestr : PyStr) : Except PyExc Int :=
  match splitFirst '-' timestr with
  | some (days_part, rest) =>
    match pyInt days_part with
    | .error e => .error e
    | .ok days =>
      match parse_hms rest with
      | .error e => .error e
      | .ok (h, m, s) => .ok (days * 86400 + h * 3600 + m * 60 + s)
  | none =>
    match parse_hms timestr with
    | .error e => .error e
    | .ok (h, m, s) => .ok (h * 3600 + m * 60 + s)

/-- main.extract_job_status: raw is info.get("JobState") or the first
whitespace token of info.get("State", ""); a truthy JobState (a
nonempty string) short-circuits the or.  When both fall through to an
empty token list, the subscript raises IndexError before raw is bound,
and the except handler then evaluates an f-string mentioning raw,
raising UnboundLocalError (which the handler does not catch).  When raw
is bound, JobStatus(raw) raising ValueError is caught and the result
defaults to UNKNOWN; the function returns status.value, a string. -/
def extract_job_status (info : Dict) : Except PyExc PyStr :=
  let validate : PyStr → PyStr := fun raw =>
    match JobStatus.ofValue raw with
    | some st => st.value
    | none => JobStatus.UNKNOWN.value
  match dictGet info "JobState".data with
  | some s =>
    if s = [] then
      match firstWsToken (dictGetD info "State".data []) with
      | some raw => .ok (validate raw)
      | none => .error .unboundLocalError
    else .ok (validate s)
  | none =>
    match firstWsToken (dictGetD info "State".data []) with
    | some raw => .ok (validate raw)
    | none => .error .unboundLocalError

/-- main._fetch_info: take the first sacct row whose JobID field equals
the queried id (default empty dict), fetch the scontrol dict, and merge
with scontrol values overwriting sacct values.  A CalledProcessError
escaping get_sacct_job_details propagates out of _fetch_info. -/
def fetch_info (job_id : PyStr) (sacctOut sctrlOut : CmdResult) :
    Except CalledProcessError Dict :=
  match get_sacct_job_details sacctOut with
  | .error e => .error e
  | .ok rows =>
    let sacct := ((rows.find? (fun x => dictGet x "JobID".data = some job_id)).getD [])
    let sctrl := get_scontrol_show_job_details sctrlOut
    .ok (mergeDict sacct sctrl)

/-- main.run_until, sleep computation inside the poll loop: remaining =
time_to_seconds of TimeLimit (default 00:00:00) minus time_to_seconds
of RunTime (default 00:00:00); sleep for max(5, min(remaining, 5*60)).
A ValueError from time_to_seconds propagates (the loop has no handler). -/
def next_sleep (info : Dict) : Except PyExc Int :=
  match time_to_seconds (dictGetD info "TimeLimit".data "00:00:00".data),
        time_to_seconds (dictGetD info "RunTime".data "00:00:00".data) with
  | .ok tl, .ok rt => .ok (max 5 (min (tl - rt) 300))
  | .error e, _ => .error e
  | _, .error e => .error e

/-- Outcome of one decision step of main.run_until after the poll loop
found a final state: either the controller calls run_sbatch again, or
it closes the chain, in which case it evaluates
JobStatus.is_success(state) on the raw State field (which raises
ValueError when that field is absent or not an exact enum value). -/
inductive StepResult where
  | resubmit
  | closed (successCheck : Except PyExc Bool)
deriving DecidableEq

/-- main.run_until, decision after the poll loop: state =
info.get("State"); resubmit when state equals the TIMEOUT value and
attempt < max_restarts, else close the chain and log according to
JobStatus.is_success(state). -/
def run_until_decision (info : Dict) (attempt max_restarts : Nat) : StepResult :=
  let state := dictGet info "State".data
  if state = some JobStatus.TIMEOUT.value ∧ attempt < max_restarts then .resubmit
  else
    .closed (match state with
      | none => .error .valueError
      | some s => JobStatus.is_success s)

/-- A Python value as passed positionally from cli to run_until. -/
inductive PyVal where
  | vstr (s : PyStr)
  | vstrs (l : List PyStr)
  | vbool (b : Bool)
  | vint (n : Int)

/-- The parameter list of main.run_until: (sbatch_args, use_detached,
max_restarts). -/
def run_until_params : List PyStr :=
  ["sbatch_args".data, "use_detached".data, "max_restarts".data]

/-- The positional argument list the non-detached branch of main.cli
passes to run_until: (sbatch_args, use_verbosity, use_detached,
max_restarts). -/
def cli_run_until_args (sbatch_args : List PyStr) (use_verbosity : PyStr)
    (use_detached : Bool) (max_restarts : Int) : List PyVal :=
  [.vstrs sbatch_args, .vstr use_verbosity, .vbool use_detached, .vint max_restarts]

/-- Python positional call mechanics: calling a function whose parameter
list has a different length than the argument list raises TypeError
before the body runs. -/
def pyCall (params : List PyStr) (args : List PyVal)
    (body : List PyVal → Except PyExc Unit) : Except PyExc Unit :=
  if args.length = params.length then body args else .error .typeError

/-- The non-detached branch of main.cli: call run_until (whatever its
body does) with the four positional arguments of line 65. -/
def cli_foreground (body : List PyVal → Except PyExc Unit)
    (sbatch_args : List PyStr) (use_verbosity : PyStr)
    (use_detached : Bool) (max_restarts : Int) : Except PyExc Unit :=
  pyCall run_until_params
    (cli_run_until_args sbatch_args use_verbosity use_detached max_restarts) body

/-- Decimal rendering of a natural number, most significant digit
first, as str() produces it. -/
def natToDecimal (n : Nat) : PyStr :=
  if n = 0 then ['0']
  else (Nat.digits 10 n).reverse.map Nat.digitChar

/-- Two-digit zero-padded decimal rendering, for the canonical HH, MM
and SS components. -/
def pad2 (n : Nat) : PyStr :=
  if n < 10 then '0' :: natToDecimal n else natToDecimal n

/-- Canonical HH:MM:SS rendering of an (hours, minutes, seconds)
triple.  Modelled from the spec: the canonical formatter the round-trip
property quantifies over; the repository itself never formats
durations, only parses them. -/
def fmtHMS (h m s : Nat) : PyStr :=
  pad2 h ++ (':' :: (pad2 m ++ (':' :: pad2 s)))

/-- Canonical D-HH:MM:SS rendering.  Modelled from the spec, as
fmtHMS. -/
def fmtDHMS (d h m s : Nat) : PyStr :=
  natToDecimal d ++ '-' :: fmtHMS h m s

/-- The confirmation pattern occurs somewhere in the output: some
position starts with the literal text followed by at least one digit.
Modelled from the spec side as the declarative counterpart of
findSubmitted. -/
def hasSubmittedPattern (s : PyStr) : Prop :=
  ∃ pre c suf, s = pre ++ submittedPat ++ c :: suf ∧ c.isDigit

/-! Association-list dict lemmas, used for the merge-precedence claim. -/

theorem dictKeys_cons (q : PyStr × PyStr) (d : Dict) :
    dictKeys (q :: d) = q.1 :: dictKeys d := rfl

theorem find?_replace_mem (k v : PyStr) :
    ∀ d : Dict, k ∈ dictKeys d →
      (d.map (fun p => if p.1 = k then (k, v) else p)).find?
        (fun p => p.1 = k) = some (k, v) := by
  intro d
  induction d with
  | nil => intro h; simp [dictKeys] at h
  | cons q d ih =>
    intro hmem
    by_cases hq : q.1 = k
    · simp only [List.map_cons, if_pos hq]
      rw [List.find?_cons_of_pos _ (by simp)]
    · simp only [List.map_cons, if_neg hq]
      rw [List.find?_cons_of_neg _ (by simp [hq])]
      apply ih
      rw [dictKeys_cons, List.mem_cons] at hmem
      rcases hmem with h | h
      · exact absurd h.symm hq
      · exact h

theorem find?_replace_ne (k v k' : PyStr) (hk : k' ≠ k) :
    ∀ d : Dict,
      (d.map (fun p => if p.1 = k then (k, v) else p)).find?
        (fun p => p.1 = k') = d.find? (fun p => p.1 = k') := by
  intro d
  induction d with
  | nil => rfl
  | cons q d ih =>
    by_cases hq : q.1 = k
    · simp only [List.map_cons, if_pos hq]
      rw [List.find?_cons_of_neg _ (by simp [Ne.symm hk]),
          List.find?_cons_of_neg _ (by simp [hq, Ne.symm hk]), ih]
    · simp only [List.map_cons, if_neg hq]
      by_cases hq' : q.1 = k'
      · rw [List.find?_cons_of_pos _ (by simp [hq']),
            List.find?_cons_of_pos _ (by simp [hq'])]
      · rw [List.find?_cons_of_neg _ (by simp [hq']),
            List.find?_cons_of_neg _ (by simp [hq']), ih]

theorem dictGet_not_mem (d : Dict) (k : PyStr) (h : k ∉ dictKeys d) :
    dictGet d k = none := by
  unfold dictGet
  rw [List.find?_eq_none.mpr]
  · rfl
  · intro x hx hpx
    exact h (List.mem_map.mpr ⟨x, hx, by simpa using hpx⟩)

theorem dictGet_insert (d : Dict) (k v k' : PyStr) :
    dictGet (dictInsert d k v) k' = if k' = k then some v else dictGet d k' := by
  unfold dictInsert
  by_cases hm : k ∈ dictKeys d
  · rw [if_pos hm]
    by_cases hk : k' = k
    · rw [if_pos hk, hk]
      unfold dictGet
      rw [find?_replace_mem k v d hm]
      rfl
    · unfold dictGet
      rw [find?_replace_ne k v k' hk d, if_neg hk]
  · rw [if_neg hm]
    by_cases hk : k' = k
    · rw [if_pos hk, hk]
      unfold dictGet
      rw [List.find?_append, List.find?_eq_none.mpr, Option.none_or]
      · simp
      · intro x hx hpx
        exact hm (List.mem_map.mpr ⟨x, hx, by simpa using hpx⟩)
    · unfold dictGet
      rw [List.find?_append, if_neg hk]
      have : List.find? (fun p => p.1 = k') [(k, v)] = none := by
        simp [Ne.symm hk]
      rw [this, Option.or_none]

theorem dictKeys_insert (d : Dict) (k v : PyStr) :
    dictKeys (dictInsert d k v) =
      if k ∈ dictKeys d then dictKeys d else dictKeys d ++ [k] := by
  unfold dictInsert
  by_cases hm : k ∈ dictKeys d
  · rw [if_pos hm, if_pos hm]
    unfold dictKeys
    rw [List.map_map]
    apply List.map_congr_left
    intro p _
    by_cases hp : p.1 = k
    · simp [hp]
    · simp [hp]
  · rw [if_neg hm, if_neg hm]
    unfold dictKeys
    rw [List.map_append]
    rfl

theorem mem_dictKeys_insert (d : Dict) (k v k' : PyStr) :
    k' ∈ dictKeys (dictInsert d k v) ↔ k' ∈ dictKeys d ∨ k' = k := by
  rw [dictKeys_insert]
  by_cases hm : k ∈ dictKeys d
  · rw [if_pos hm]
    constructor
    · exact Or.inl
    · rintro (h | h)
      · exact h
      · exact h ▸ hm
  · rw [if_neg hm]
    simp

theorem mergeDict_cons (a : Dict) (p : PyStr × PyStr) (b : Dict) :
    mergeDict a (p :: b) = mergeDict (dictInsert a p.1 p.2) b := rfl

theorem mem_dictKeys_mergeDict :
    ∀ (b a : Dict) (k : PyStr),
      k ∈ dictKeys (mergeDict a b) ↔ k ∈ dictKeys a ∨ k ∈ dictKeys b := by
  intro b
  induction b with
  | nil => intro a k; simp [mergeDict, dictKeys]
  | cons p b ih =>
    intro a k
    rw [mergeDict_cons, ih, mem_dictKeys_insert, dictKeys_cons, List.mem_cons]
    tauto

theorem dictGet_mergeDict_not_mem :
    ∀ (b a : Dict) (k : PyStr), k ∉ dictKeys b →
      dictGet (mergeDict a b) k = dictGet a k := by
  intro b
  induction b with
  | nil => intro a k _; rfl
  | cons p b ih =>
    intro a k hk
    rw [dictKeys_cons, List.mem_cons] at hk
    push_neg at hk
    rw [mergeDict_cons, ih _ _ hk.2, dictGet_insert, if_neg hk.1]

theorem dictGet_mergeDict_mem :
    ∀ (b a : Dict) (k v : PyStr), (dictKeys b).Nodup →
      dictGet b k = some v → dictGet (mergeDict a b) k = some v := by
  intro b
  induction b with
  | nil => intro a k v _ h; simp [dictGet] at h
  | cons p b ih =>
    intro a k v hnd hget
    rw [dictKeys_cons] at hnd
    have hnotin : p.1 ∉ dictKeys b := (List.nodup_cons.mp hnd).1
    have hnd' : (dictKeys b).Nodup := (List.nodup_cons.mp hnd).2
    rw [mergeDict_cons]
    by_cases hk : p.1 = k
    · subst hk
      have hv : v = p.2 := by
        unfold dictGet at hget
        rw [List.find?_cons_of_pos _ (by simp)] at hget
        simpa using hget.symm
      rw [dictGet_mergeDict_not_mem b _ _ hnotin, dictGet_insert, if_pos rfl, hv]
    · apply ih
      · exact hnd'
      · unfold dictGet at hget ⊢
        rwa [List.find?_cons_of_neg _ (by simp [hk])] at hget

/-- C9: for every accounting record and live record, the merged State
Record contains the union of their keys; for a key present in the live
record (which has no duplicate keys) the merged value is the live
value, and for a key absent from the live record the merged value is
the accounting value; in particular State TIMEOUT (accounting) merged
with State RUNNING (live) gives RUNNING. -/
theorem merge_precedence_c9 (a b : Dict) (k : PyStr) :
    (k ∈ dictKeys (mergeDict a b) ↔ k ∈ dictKeys a ∨ k ∈ dictKeys b) ∧
    ((dictKeys b).Nodup → ∀ v, dictGet b k = some v →
      dictGet (mergeDict a b) k = some v) ∧
    (dictGet b k = none → dictGet (mergeDict a b) k = dictGet a k) := by
  refine ⟨mem_dictKeys_mergeDict b a k, ?_, ?_⟩
  · intro hnd v hv
    exact dictGet_mergeDict_mem b a k v hnd hv
  · intro hnone
    apply dictGet_mergeDict_not_mem
    intro hmem
    rcases List.mem_map.mp hmem with ⟨p, hp, hpk⟩
    have : dictGet b k ≠ none := by
      unfold dictGet
      have : (List.find? (fun p => p.1 = k) b).isSome := by
        rw [List.find?_isSome]
        exact ⟨p, hp, by simp [hpk]⟩
      rcases Option.isSome_iff_exists.mp this with ⟨q, hq⟩
      simp [hq]
    exact this hnone

/-- C9 witness: the concrete merge of the claim, obtained from
merge_precedence_c9. -/
theorem merge_precedence_c9_witness :
    dictGet (mergeDict [("State".data, "TIMEOUT".data)]
        [("State".data, "RUNNING".data)]) "State".data =
      some "RUNNING".data :=
  (merge_precedence_c9 [("State".data, "TIMEOUT".data)]
    [("State".data, "RUNNING".data)] "State".data).2.1
    (by decide) "RUNNING".data (by decide)

/-- C10: JobStatus.is_final and JobStatus.is_success are partial on
strings: for every input string that is not exactly one of the enum
values, both raise ValueError instead of returning a boolean. -/
theorem is_final_is_success_partial_c10 (s : PyStr)
    (h : s ∉ JobStatus.values) :
    JobStatus.is_final s = .error .valueError ∧
    JobStatus.is_success s = .error .valueError := by
  have hov : JobStatus.ofValue s = none := by
    unfold JobStatus.ofValue
    rw [List.find?_eq_none]
    intro st hst hpst
    exact h (List.mem_map.mpr ⟨st, hst, by simpa using hpst⟩)
  unfold JobStatus.is_final JobStatus.is_success
  rw [hov]
  exact ⟨rfl, rfl⟩

/-- C10 witness: a live-query state with a trailing annotation and a
lowercase state both raise ValueError. -/
theorem is_final_is_success_partial_c10_witness :
    JobStatus.is_final "CANCELLED by 123".data = .error .valueError ∧
    JobStatus.is_success "cancelled".data = .error .valueError :=
  ⟨(is_final_is_success_partial_c10 "CANCELLED by 123".data (by decide)).1,
   (is_final_is_success_partial_c10 "cancelled".data (by decide)).2⟩

/-- C8: is_final is true exactly on the thirteen terminal variants and
is_success exactly on Completed and Timeout; in particular
is_final(Unknown) is true, is_final(Running) is false,
is_success(Timeout) is true and is_success(Cancelled) is false. -/
theorem classifier_tables_c8 :
    (∀ st : JobStatus,
      JobStatus.is_final st.value =
        .ok (decide (st = .COMPLETED ∨ st = .FAILED ∨ st = .TIMEOUT ∨
          st = .PREEMPTED ∨ st = .STOPPED ∨ st = .CANCELLED ∨
          st = .BOOT_FAIL ∨ st = .NODE_FAIL ∨ st = .DEADLINE ∨
          st = .OUT_OF_MEMORY ∨ st = .SPECIAL_EXIT ∨ st = .REVOKED ∨
          st = .UNKNOWN)) ∧
      JobStatus.is_success st.value =
        .ok (decide (st = .COMPLETED ∨ st = .TIMEOUT))) ∧
    JobStatus.is_final "UNKNOWN".data = .ok true ∧
    JobStatus.is_final "RUNNING".data = .ok false ∧
    JobStatus.is_success "TIMEOUT".data = .ok true ∧
    JobStatus.is_success "CANCELLED".data = .ok false := by
  refine ⟨fun st => ?_, by decide, by decide, by decide, by decide⟩
  cases st <;> exact ⟨by decide, by decide⟩

/-- C4 is false of the code: extract_job_status is not total.  On a
record with no JobState and a missing or empty State field, the
IndexError of the empty split is caught, but the handler references
the unassigned variable raw in its warning message and raises
UnboundLocalError; a nonempty unrecognized status still maps to
UNKNOWN. -/
theorem extract_job_status_bug_c4 :
    extract_job_status [] = .error .unboundLocalError ∧
    extract_job_status [("State".data, "".data)] = .error .unboundLocalError ∧
    extract_job_status [("State".data, " ".data)] = .error .unboundLocalError ∧
    extract_job_status [("State".data, "NONSENSE".data)] = .ok "UNKNOWN".data ∧
    extract_job_status [("State".data, "CANCELLED by 123".data)] =
      .ok "CANCELLED".data := by
  refine ⟨rfl, by decide, by decide, by decide, by decide⟩

/-- C2 is false of the code: the non-detached branch of cli calls
run_until with four positional arguments while run_until takes three,
so every foreground invocation raises TypeError before the initial
submission, whatever run_until would do; the process therefore never
exits zero on a successful chain. -/
theorem cli_foreground_arity_bug_c2 :
    ∀ (body : List PyVal → Except PyExc Unit) (sbatch_args : List PyStr)
      (use_verbosity : PyStr) (use_detached : Bool) (max_restarts : Int),
      cli_foreground body sbatch_args use_verbosity use_detached max_restarts =
        .error .typeError := by
  intro body sbatch_args use_verbosity use_detached max_restarts
  simp [cli_foreground, pyCall, cli_run_until_args, run_until_params]

/-- C3 as stated is false of the code: when the accounting query fails
with a CalledProcessError, _fetch_info propagates it (sacct runs with
check=True and nothing is caught), so a double command failure raises
instead of returning the empty record. -/
theorem fetch_info_c3_counterexample :
    fetch_info "1".data (.error (CalledProcessError.mk 1))
        (.error (CalledProcessError.mk 1)) =
      .error (CalledProcessError.mk 1) ∧
    fetch_info "1".data (.error (CalledProcessError.mk 1))
        (.error (CalledProcessError.mk 1)) ≠ .ok [] := by
  exact ⟨rfl, by decide⟩

/-- C3 amended: an accounting-query CalledProcessError propagates out of
_fetch_info unconditionally; only the live-query failure is swallowed:
with an empty accounting output and a failing live query the merged
record is empty. -/
theorem fetch_info_c3_amended :
    ∀ (job_id : PyStr) (e : CalledProcessError) (sctrlOut : CmdResult),
      fetch_info job_id (.error e) sctrlOut = .error e ∧
      fetch_info job_id (.ok "".data) (.error e) = .ok [] := by
  intro job_id e sctrlOut
  exact ⟨rfl, rfl⟩

/-- C1 as stated is false of the code: here is a poll record whose
classified state is Timeout (JobState TIMEOUT, no State field) with
attempts-so-far 1 strictly below the attempt budget 2, yet the
controller does not resubmit: the decision compares the raw State
field, which is absent, so it closes the chain (and the closing
is_success check on the absent field raises ValueError). -/
theorem run_until_decision_c1_counterexample :
    extract_job_status [("JobState".data, "TIMEOUT".data)] =
      .ok JobStatus.TIMEOUT.value ∧
    1 < 2 ∧
    run_until_decision [("JobState".data, "TIMEOUT".data)] 1 2 =
      .closed (.error .valueError) := by
  refine ⟨by decide, by decide, by decide⟩

/-- C1 amended: the controller resubmits if and only if the raw State
field of the record is exactly the TIMEOUT value and attempts-so-far is
strictly below the attempt budget; with attempt budget 1, a first
attempt whose State is TIMEOUT closes the chain (is_success on TIMEOUT
returns true, the Timeout outcome) with no resubmission. -/
theorem run_until_decision_c1_amended :
    ∀ (info : Dict) (attempt max_restarts : Nat),
      (run_until_decision info attempt max_restarts = .resubmit ↔
        dictGet info "State".data = some JobStatus.TIMEOUT.value ∧
          attempt < max_restarts) ∧
      (dictGet info "State".data = some JobStatus.TIMEOUT.value →
        run_until_decision info 1 1 = .closed (.ok true)) := by
  intro info attempt max_restarts
  constructor
  · unfold run_until_decision
    by_cases h : dictGet info "State".data = some JobStatus.TIMEOUT.value ∧
        attempt < max_restarts
    · rw [if_pos h]
      simp [h]
    · rw [if_neg h]
      simp [h]
  · intro h
    unfold run_until_decision
    rw [if_neg (fun hc => absurd hc.2 (by omega))]
    rw [h]
    decide

/-! Lemmas about decimal rendering and pyInt, for the duration
round-trip claim. -/

theorem toNat_digitChar_sub (d : Nat) (hd : d < 10) :
    (Nat.digitChar d).toNat - 48 = d := by
  interval_cases d <;> decide

theorem isDigit_digitChar (d : Nat) (hd : d < 10) :
    (Nat.digitChar d).isDigit = true := by
  interval_cases d <;> decide

theorem mem_natToDecimal_isDigit (n : Nat) :
    ∀ c ∈ natToDecimal n, c.isDigit = true := by
  intro c hc
  unfold natToDecimal at hc
  by_cases h0 : n = 0
  · rw [if_pos h0] at hc
    simp at hc
    subst hc
    decide
  · rw [if_neg h0] at hc
    rcases List.mem_map.mp hc with ⟨d, hd, rfl⟩
    exact isDigit_digitChar d
      (Nat.digits_lt_base (by norm_num) (List.mem_reverse.mp hd))

theorem natToDecimal_ne_nil (n : Nat) : natToDecimal n ≠ [] := by
  unfold natToDecimal
  by_cases h0 : n = 0
  · rw [if_pos h0]; simp
  · rw [if_neg h0]
    simp [Nat.digits_ne_nil_iff_ne_zero, h0]

theorem decVal_aux :
    ∀ (L : List Nat), (∀ d ∈ L, d < 10) → ∀ (a : Nat),
      List.foldl (fun x c => 10 * x + (c.toNat - 48)) a
        (L.reverse.map Nat.digitChar) =
      a * 10 ^ L.length + Nat.ofDigits 10 L := by
  intro L
  induction L with
  | nil => intro _ a; simp [Nat.ofDigits]
  | cons d L ih =>
    intro hlt a
    rw [List.reverse_cons, List.map_append, List.foldl_append]
    rw [ih (fun x hx => hlt x (List.mem_cons_of_mem d hx)) a]
    simp only [List.map_cons, List.map_nil, List.foldl_cons, List.foldl_nil]
    rw [toNat_digitChar_sub d (hlt d (List.mem_cons_self d L))]
    rw [Nat.ofDigits_cons]
    simp only [List.length_cons, pow_succ, Nat.cast_id]
    ring

theorem decVal_natToDecimal (n : Nat) : decVal (natToDecimal n) = n := by
  unfold natToDecimal decVal
  by_cases h0 : n = 0
  · rw [if_pos h0, h0]; rfl
  · rw [if_neg h0]
    rw [decVal_aux (Nat.digits 10 n)
      (fun d hd => Nat.digits_lt_base (by norm_num) hd) 0]
    simp [Nat.ofDigits_digits]

theorem decVal_cons_zero (l : PyStr) : decVal ('0' :: l) = decVal l := rfl

theorem pyIsSpace_eq_false_of_isDigit (c : Char) (h : c.isDigit = true) :
    pyIsSpace c = false := by
  unfold pyIsSpace
  rw [decide_eq_false_iff_not]
  rintro (rfl | rfl | rfl | rfl | rfl | rfl) <;> exact absurd h (by decide)

theorem dropWhile_eq_self_of_not (p : Char → Bool) :
    ∀ (l : PyStr), (∀ c ∈ l, p c = false) → l.dropWhile p = l := by
  intro l hl
  cases l with
  | nil => rfl
  | cons c cs =>
    rw [List.dropWhile_cons_of_neg]
    simp [hl c (List.mem_cons_self c cs)]

theorem pyStrip_eq_self_of_digits (ds : PyStr)
    (h : ∀ c ∈ ds, c.isDigit = true) : pyStrip ds = ds := by
  unfold pyStrip
  rw [dropWhile_eq_self_of_not pyIsSpace ds
    (fun c hc => pyIsSpace_eq_false_of_isDigit c (h c hc))]
  rw [dropWhile_eq_self_of_not pyIsSpace ds.reverse
    (fun c hc => pyIsSpace_eq_false_of_isDigit c (h c (List.mem_reverse.mp hc)))]
  exact List.reverse_reverse ds

theorem pyInt_digits (ds : PyStr) (hne : ds ≠ [])
    (h : ∀ c ∈ ds, c.isDigit = true) : pyInt ds = .ok ((decVal ds : Nat) : Int) := by
  cases ds with
  | nil => exact absurd rfl hne
  | cons c cs =>
    have hc : c.isDigit = true := h c (List.mem_cons_self c cs)
    unfold pyInt
    rw [pyStrip_eq_self_of_digits (c :: cs) h]
    split
    · rename_i ds heq
      injection heq with h1 _
      exact absurd h1.symm (by rintro rfl; exact absurd hc (by decide))
    · rename_i ds heq
      injection heq with h1 _
      exact absurd h1.symm (by rintro rfl; exact absurd hc (by decide))
    · rw [if_pos ⟨List.cons_ne_nil c cs, List.all_eq_true.mpr h⟩]

theorem pyInt_natToDecimal (n : Nat) : pyInt (natToDecimal n) = .ok (n : Int) := by
  rw [pyInt_digits (natToDecimal n) (natToDecimal_ne_nil n)
    (mem_natToDecimal_isDigit n), decVal_natToDecimal]

theorem mem_pad2_isDigit (n : Nat) : ∀ c ∈ pad2 n, c.isDigit = true := by
  intro c hc
  unfold pad2 at hc
  by_cases h : n < 10
  · rw [if_pos h] at hc
    rcases List.mem_cons.mp hc with rfl | hc
    · decide
    · exact mem_natToDecimal_isDigit n c hc
  · rw [if_neg h] at hc
    exact mem_natToDecimal_isDigit n c hc

theorem pyInt_pad2 (n : Nat) : pyInt (pad2 n) = .ok (n : Int) := by
  unfold pad2
  by_cases h : n < 10
  · rw [if_pos h]
    rw [pyInt_digits ('0' :: natToDecimal n) (by simp)
      (by
        intro c hc
        rcases List.mem_cons.mp hc with rfl | hc
        · decide
        · exact mem_natToDecimal_isDigit n c hc)]
    rw [decVal_cons_zero, decVal_natToDecimal]
  · rw [if_neg h]
    exact pyInt_natToDecimal n

theorem ne_dash_of_isDigit (c : Char) (h : c.isDigit = true) : c ≠ '-' := by
  rintro rfl; exact absurd h (by decide)

theorem ne_colon_of_isDigit (c : Char) (h : c.isDigit = true) : c ≠ ':' := by
  rintro rfl; exact absurd h (by decide)

/-! Splitting lemmas. -/

theorem pySplitChar_cons_eq (sep c : Char) (rest : PyStr) :
    pySplitChar sep (c :: rest) =
      if c = sep then [] :: pySplitChar sep rest
      else
        match pySplitChar sep rest with
        | [] => [[c]]
        | p :: ps => (c :: p) :: ps := rfl

theorem pySplitChar_not_mem (sep : Char) :
    ∀ (a : PyStr), (∀ c ∈ a, c ≠ sep) → pySplitChar sep a = [a] := by
  intro a
  induction a with
  | nil => intro _; rfl
  | cons c cs ih =>
    intro ha
    rw [pySplitChar_cons_eq, if_neg (ha c (List.mem_cons_self c cs)),
        ih (fun x hx => ha x (List.mem_cons_of_mem c hx))]

theorem pySplitChar_append (sep : Char) :
    ∀ (a b : PyStr), (∀ c ∈ a, c ≠ sep) →
      pySplitChar sep (a ++ sep :: b) = a :: pySplitChar sep b := by
  intro a
  induction a with
  | nil =>
    intro b _
    rw [List.nil_append, pySplitChar_cons_eq, if_pos rfl]
  | cons c cs ih =>
    intro b ha
    rw [List.cons_append, pySplitChar_cons_eq,
        if_neg (ha c (List.mem_cons_self c cs)),
        ih b (fun x hx => ha x (List.mem_cons_of_mem c hx))]

theorem splitFirst_cons_eq (sep c : Char) (rest : PyStr) :
    splitFirst sep (c :: rest) =
      if c = sep then some ([], rest)
      else (splitFirst sep rest).map (fun p => (c :: p.1, p.2)) := rfl

theorem splitFirst_not_mem (sep : Char) :
    ∀ (a : PyStr), (∀ c ∈ a, c ≠ sep) → splitFirst sep a = none := by
  intro a
  induction a with
  | nil => intro _; rfl
  | cons c cs ih =>
    intro ha
    rw [splitFirst_cons_eq, if_neg (ha c (List.mem_cons_self c cs)),
        ih (fun x hx => ha x (List.mem_cons_of_mem c hx))]
    rfl

theorem splitFirst_append (sep : Char) :
    ∀ (a b : PyStr), (∀ c ∈ a, c ≠ sep) →
      splitFirst sep (a ++ sep :: b) = some (a, b) := by
  intro a
  induction a with
  | nil => intro b _; rw [List.nil_append, splitFirst_cons_eq, if_pos rfl]
  | cons c cs ih =>
    intro b ha
    rw [List.cons_append, splitFirst_cons_eq,
        if_neg (ha c (List.mem_cons_self c cs)),
        ih b (fun x hx => ha x (List.mem_cons_of_mem c hx))]
    rfl

theorem mem_fmtHMS_ne_dash (h m s : Nat) : ∀ c ∈ fmtHMS h m s, c ≠ '-' := by
  intro c hc
  unfold fmtHMS at hc
  rcases List.mem_append.mp hc with hc | hc
  · exact ne_dash_of_isDigit c (mem_pad2_isDigit h c hc)
  · rcases List.mem_cons.mp hc with rfl | hc
    · decide
    · rcases List.mem_append.mp hc with hc | hc
      · exact ne_dash_of_isDigit c (mem_pad2_isDigit m c hc)
      · rcases List.mem_cons.mp hc with rfl | hc
        · decide
        · exact ne_dash_of_isDigit c (mem_pad2_isDigit s c hc)

theorem pySplitChar_fmtHMS (h m s : Nat) :
    pySplitChar ':' (fmtHMS h m s) = [pad2 h, pad2 m, pad2 s] := by
  unfold fmtHMS
  rw [pySplitChar_append ':' (pad2 h) _
    (fun c hc => ne_colon_of_isDigit c (mem_pad2_isDigit h c hc))]
  rw [pySplitChar_append ':' (pad2 m) _
    (fun c hc => ne_colon_of_isDigit c (mem_pad2_isDigit m c hc))]
  rw [pySplitChar_not_mem ':' (pad2 s)
    (fun c hc => ne_colon_of_isDigit c (mem_pad2_isDigit s c hc))]

theorem parse_hms_fmtHMS (h m s : Nat) :
    parse_hms (fmtHMS h m s) = .ok ((h : Int), (m : Int), (s : Int)) := by
  unfold parse_hms
  rw [pySplitChar_fmtHMS]
  dsimp only
  rw [pyInt_pad2 h, pyInt_pad2 m, pyInt_pad2 s]

theorem time_to_seconds_fmtHMS (h m s : Nat) :
    time_to_seconds (fmtHMS h m s) =
      .ok ((h : Int) * 3600 + (m : Int) * 60 + (s : Int)) := by
  unfold time_to_seconds
  rw [splitFirst_not_mem '-' (fmtHMS h m s) (mem_fmtHMS_ne_dash h m s)]
  dsimp only
  rw [parse_hms_fmtHMS]

theorem time_to_seconds_fmtDHMS (d h m s : Nat) :
    time_to_seconds (fmtDHMS d h m s) =
      .ok ((d : Int) * 86400 + (h : Int) * 3600 + (m : Int) * 60 + (s : Int)) := by
  unfold time_to_seconds fmtDHMS
  rw [splitFirst_append '-' (natToDecimal d) (fmtHMS h m s)
    (fun c hc => ne_dash_of_isDigit c (mem_natToDecimal_isDigit d c hc))]
  dsimp only
  rw [pyInt_natToDecimal d]
  dsimp only
  rw [parse_hms_fmtHMS]

/-- C7: time_to_seconds is a left-inverse of the canonical duration
formatter: for every nonnegative (D, H, M, S) it maps the rendered
D-HH:MM:SS form to D*86400 + H*3600 + M*60 + S, and the rendered
HH:MM:SS form to H*3600 + M*60 + S. -/
theorem time_to_seconds_round_trip_c7 (d h m s : Nat) :
    time_to_seconds (fmtDHMS d h m s) =
      .ok ((d : Int) * 86400 + (h : Int) * 3600 + (m : Int) * 60 + (s : Int)) ∧
    time_to_seconds (fmtHMS h m s) =
      .ok ((h : Int) * 3600 + (m : Int) * 60 + (s : Int)) :=
  ⟨time_to_seconds_fmtDHMS d h m s, time_to_seconds_fmtHMS h m s⟩

/-- C1 amended witness: with raw State TIMEOUT the controller resubmits
at attempt 1 of budget 2 and closes at budget 1. -/
theorem run_until_decision_c1_amended_witness :
    run_until_decision [("State".data, JobStatus.TIMEOUT.value)] 1 2 =
      .resubmit ∧
    run_until_decision [("State".data, JobStatus.TIMEOUT.value)] 1 1 =
      .closed (.ok true) :=
  ⟨(run_until_decision_c1_amended
      [("State".data, JobStatus.TIMEOUT.value)] 1 2).1.mpr ⟨by decide, by decide⟩,
   (run_until_decision_c1_amended
      [("State".data, JobStatus.TIMEOUT.value)] 1 1).2 (by decide)⟩

/-! Lemmas relating the regex search of run_sbatch to the declarative
presence of the confirmation pattern. -/

theorem startsWith_iff : ∀ (p s : PyStr), startsWith p s = true ↔ ∃ t, s = p ++ t := by
  intro p
  induction p with
  | nil =>
    intro s
    simp [startsWith]
  | cons a p ih =>
    intro s
    cases s with
    | nil => simp [startsWith]
    | cons c cs =>
      rw [show startsWith (a :: p) (c :: cs) = (decide (a = c) && startsWith p cs)
        from rfl]
      rw [Bool.and_eq_true, decide_eq_true_eq, ih cs]
      constructor
      · rintro ⟨rfl, t, rfl⟩
        exact ⟨t, rfl⟩
      · rintro ⟨t, ht⟩
        injection ht with h1 h2
        exact ⟨h1.symm, t, h2⟩

theorem findSubmitted_cons (c : Char) (rest : PyStr) :
    findSubmitted (c :: rest) =
      if startsWith submittedPat (c :: rest) then
        if ((c :: rest).drop submittedPat.length).takeWhile Char.isDigit = [] then
          findSubmitted rest
        else some (((c :: rest).drop submittedPat.length).takeWhile Char.isDigit)
      else findSubmitted rest := rfl

theorem hasSubmittedPattern_cons (c : Char) (s : PyStr) :
    hasSubmittedPattern s → hasSubmittedPattern (c :: s) := by
  rintro ⟨pre, d, suf, rfl, hd⟩
  exact ⟨c :: pre, d, suf, rfl, hd⟩

theorem findSubmitted_pat_head (d : Char) (suf : PyStr) (hd : d.isDigit = true) :
    findSubmitted (submittedPat ++ d :: suf) =
      some (d :: suf.takeWhile Char.isDigit) := by
  have hcons : submittedPat ++ d :: suf =
      'S' :: ("ubmitted batch job ".data ++ d :: suf) := rfl
  rw [hcons, findSubmitted_cons]
  rw [if_pos (by
    rw [← hcons]
    exact (startsWith_iff submittedPat (submittedPat ++ d :: suf)).mpr
      ⟨d :: suf, rfl⟩)]
  have hdrop : ('S' :: ("ubmitted batch job ".data ++ d :: suf)).drop
      submittedPat.length = d :: suf := by
    rw [← hcons]
    exact List.drop_left' rfl
  rw [hdrop, List.takeWhile_cons_of_pos hd]
  rw [if_neg (by simp)]

theorem findSubmitted_ne_none_of_pattern :
    ∀ (pre : PyStr) (d : Char) (suf : PyStr), d.isDigit = true →
      findSubmitted (pre ++ (submittedPat ++ d :: suf)) ≠ none := by
  intro pre
  induction pre with
  | nil =>
    intro d suf hd
    rw [List.nil_append, findSubmitted_pat_head d suf hd]
    simp
  | cons c pre ih =>
    intro d suf hd
    rw [List.cons_append, findSubmitted_cons]
    by_cases hs : startsWith submittedPat
        (c :: (pre ++ (submittedPat ++ d :: suf))) = true
    · rw [if_pos hs]
      by_cases hds : ((c :: (pre ++ (submittedPat ++ d :: suf))).drop
          submittedPat.length).takeWhile Char.isDigit = []
      · rw [if_pos hds]
        exact ih d suf hd
      · rw [if_neg hds]
        simp
    · rw [if_neg hs]
      exact ih d suf hd

theorem pattern_of_findSubmitted_some :
    ∀ (s ds : PyStr), findSubmitted s = some ds → hasSubmittedPattern s := by
  intro s
  induction s with
  | nil =>
    intro ds h
    simp [findSubmitted] at h
  | cons c rest ih =>
    intro ds h
    rw [findSubmitted_cons] at h
    by_cases hs : startsWith submittedPat (c :: rest) = true
    · rw [if_pos hs] at h
      rcases (startsWith_iff submittedPat (c :: rest)).mp hs with ⟨t, ht⟩
      by_cases hds : ((c :: rest).drop submittedPat.length).takeWhile
          Char.isDigit = []
      · rw [if_pos hds] at h
        exact hasSubmittedPattern_cons c rest (ih ds h)
      · have hdrop : (c :: rest).drop submittedPat.length = t := by
          rw [ht]
          exact List.drop_left' rfl
        rw [hdrop] at hds
        cases t with
        | nil => exact absurd rfl hds
        | cons e t =>
          by_cases he : e.isDigit = true
          · exact ⟨[], e, t, ht, he⟩
          · rw [List.takeWhile_cons_of_neg (by simpa using he)] at hds
            exact absurd rfl hds
    · rw [if_neg hs] at h
      exact hasSubmittedPattern_cons c rest (ih ds h)

theorem findSubmitted_eq_none_iff (s : PyStr) :
    findSubmitted s = none ↔ ¬ hasSubmittedPattern s := by
  constructor
  · intro h hp
    rcases hp with ⟨pre, d, suf, rfl, hd⟩
    exact findSubmitted_ne_none_of_pattern pre d suf hd (by
      rw [List.append_assoc] at h
      exact h)
  · intro h
    cases hfs : findSubmitted s with
    | none => rfl
    | some ds => exact absurd (pattern_of_findSubmitted_some s ds hfs) h

/-- C5 as stated is false of the code: on a zero-exit submit whose
output lacks the confirmation pattern, run_sbatch does not fail with a
dedicated exception; it returns the non-error value None (no
SubmissionIdentifierNotFound exists in the repository). -/
theorem run_sbatch_c5_counterexample :
    run_sbatch (.ok "hello".data) = .ok none := rfl

/-- C5 amended: on a zero-exit submit, run_sbatch returns the sentinel
None exactly when the confirmation pattern is absent from the output
(its callers treat None as failure of that attempt), while a nonzero
exit still propagates the CalledProcessError. -/
theorem run_sbatch_c5_amended (out : PyStr) (e : CalledProcessError) :
    (run_sbatch (.ok out) = .ok none ↔ ¬ hasSubmittedPattern out) ∧
    run_sbatch (.error e) = .error e := by
  constructor
  · unfold run_sbatch
    dsimp only
    rw [← findSubmitted_eq_none_iff]
    constructor
    · intro h
      exact Except.ok.inj h
    · intro h
      rw [h]
  · rfl

/-- C5 amended witness: the pattern is absent from a concrete
unparseable output, via run_sbatch_c5_amended. -/
theorem run_sbatch_c5_amended_witness :
    ¬ hasSubmittedPattern "hello".data ∧
    run_sbatch (.error (CalledProcessError.mk 3)) =
      .error (CalledProcessError.mk 3) :=
  ⟨(run_sbatch_c5_amended "hello".data (CalledProcessError.mk 3)).1.mp rfl,
   (run_sbatch_c5_amended "hello".data (CalledProcessError.mk 3)).2⟩

/-- C6 as stated is false of the code: an unparsable duration is not
treated as zero; time_to_seconds raises ValueError on it and the sleep
computation propagates the exception instead of producing an interval
in 5 to 300. -/
theorem next_sleep_c6_counterexample :
    next_sleep [("TimeLimit".data, "UNLIMITED".data)] = .error .valueError ∧
    time_to_seconds "UNLIMITED".data = .error .valueError := by
  exact ⟨by decide, by decide⟩

/-- C6 amended: absent TimeLimit or RunTime fields default to the
string 00:00:00, hence zero seconds; whenever both durations parse, the
computed sleep interval is max 5 (min remaining 300), which lies in
5 to 300 even for negative remaining; an unparsable duration instead
raises ValueError. -/
theorem next_sleep_c6_amended (info : Dict) (tl rt : Int)
    (h1 : time_to_seconds (dictGetD info "TimeLimit".data "00:00:00".data) =
      .ok tl)
    (h2 : time_to_seconds (dictGetD info "RunTime".data "00:00:00".data) =
      .ok rt) :
    next_sleep info = .ok (max 5 (min (tl - rt) 300)) ∧
    5 ≤ max 5 (min (tl - rt) 300) ∧ max 5 (min (tl - rt) 300) ≤ 300 := by
  refine ⟨?_, le_max_left _ _, max_le (by norm_num) (min_le_right _ _)⟩
  unfold next_sleep
  rw [h1, h2]

/-- C6 amended witness: a record with ten minutes of limit and one
minute of run time sleeps for the 300 second ceiling, via
next_sleep_c6_amended. -/
theorem next_sleep_c6_amended_witness :
    next_sleep [("TimeLimit".data, "00:10:00".data),
        ("RunTime".data, "00:01:00".data)] =
      .ok (max 5 (min ((600 : Int) - 60) 300)) ∧
    5 ≤ max 5 (min ((600 : Int) - 60) 300) ∧
    max 5 (min ((600 : Int) - 60) 300) ≤ 300 :=
  next_sleep_c6_amended
    [("TimeLimit".data, "00:10:00".data), ("RunTime".data, "00:01:00".data)]
    600 60 (by decide) (by decide)
